import Mathlib

/-!
Verification development for the DL_Ass_1 neural-network training engine
(src/DL_Ass_1/main.py).  The numeric substrate (numpy 2-D float arrays) is
embedded as dimension-annotated rational matrices; the transcendental
collaborators np.exp, np.log, np.sqrt and the random draws are abstract
function parameters, since the source only ever composes them.  Floating
point numbers are idealised as rationals.
-/

/-- A dense 2-D array: explicit dimensions plus an entry function.  Entries
outside the stated dimensions are junk and never relied upon; every numpy
operation of the source is modelled as an operation on this type. -/
structure Mat where
  rows : Nat
  cols : Nat
  entry : Nat → Nat → ℚ

namespace Mat

/-- np.zeros((r, c)). -/
def zeros (r c : Nat) : Mat := ⟨r, c, fun _ _ => 0⟩

/-- np.dot(A, B): matrix product, contracting over A's column count. -/
def matMul (A B : Mat) : Mat :=
  ⟨A.rows, B.cols, fun i j => ∑ k ∈ Finset.range A.cols, A.entry i k * B.entry k j⟩

/-- A.T. -/
def transpose (A : Mat) : Mat := ⟨A.cols, A.rows, fun i j => A.entry j i⟩

/-- Elementwise unary map, as in np.divide(A, scalar) etc. -/
def map (f : ℚ → ℚ) (A : Mat) : Mat := ⟨A.rows, A.cols, fun i j => f (A.entry i j)⟩

/-- Elementwise binary operation of two same-shaped arrays (the only regime in
which the source combines arrays elementwise); the result carries the left
operand's dimensions. -/
def zip (f : ℚ → ℚ → ℚ) (A B : Mat) : Mat :=
  ⟨A.rows, A.cols, fun i j => f (A.entry i j) (B.entry i j)⟩

/-- Z + b for a [n,1] bias b: numpy broadcasts b across the columns. -/
def addBias (Z b : Mat) : Mat := ⟨Z.rows, Z.cols, fun i j => Z.entry i j + b.entry i 0⟩

/-- np.max(Z, axis=0) at column j: maximum of the column (rows > 0 assumed,
as numpy raises on an empty reduction). -/
def colMax (Z : Mat) (j : Nat) : ℚ :=
  (List.range Z.rows).foldl (fun m i => max m (Z.entry i j)) (Z.entry 0 j)

/-- X[:, lo:hi] — a contiguous column slice (a mini-batch in the
features-by-examples orientation used throughout). -/
def colSlice (A : Mat) (lo hi : Nat) : Mat :=
  ⟨A.rows, hi - lo, fun i j => A.entry i (lo + j)⟩

end Mat

/-- The string dispatch of the source uses exactly the two activation names. -/
inductive Activation where
  | relu
  | softmax
deriving DecidableEq

/-- linear_forward: Z = W·A + b (bias broadcast), cache = (A, W, b). -/
def linear_forward (A W b : Mat) : Mat × (Mat × Mat × Mat) :=
  (Mat.addBias (Mat.matMul W A) b, (A, W, b))

/-- softmax: subtract each column's max, apply the exponential (abstract
parameter ex, standing for np.exp), normalise each column by its sum.
Returns the activation and the cache Z. -/
def softmax (ex : ℚ → ℚ) (Z : Mat) : Mat × Mat :=
  let e_x : Mat := ⟨Z.rows, Z.cols, fun i j => ex (Z.entry i j - Mat.colMax Z j)⟩
  let s : Nat → ℚ := fun j => ∑ i ∈ Finset.range Z.rows, e_x.entry i j
  (⟨Z.rows, Z.cols, fun i j => e_x.entry i j / s j⟩, Z)

/-- relu: A = np.maximum(0, Z), cache Z. -/
def relu (Z : Mat) : Mat × Mat := (Z.map (fun z => max 0 z), Z)

/-- The per-layer cache list of the source is positional ([linear_cache,
activation_cache] or [linear_cache, activation_cache, third]); the optional
third slot holds the dropout mask in forward caches, and the true labels in
the softmax backward cache. -/
structure Cache where
  lin : Mat × Mat × Mat
  act : Mat
  third : Option Mat

def defaultCache : Cache := ⟨(Mat.zeros 0 0, Mat.zeros 0 0, Mat.zeros 0 0), Mat.zeros 0 0, none⟩

/-- linear_activation_forward.  rand models the np.random.rand draw used to
build the Bernoulli keep-mask; the boolean mask (drop_matrix < dropout) is a
0/1 matrix.  Dropout applies only on the relu branch and only when
dropout < 1. -/
def linear_activation_forward (ex : ℚ → ℚ) (rand : Nat → Nat → ℚ)
    (A_prev W B : Mat) (activation : Activation) (dropout : ℚ) : Mat × Cache :=
  let Zlc := linear_forward A_prev W B
  match activation with
  | .relu =>
    let Aac := relu Zlc.1
    if dropout < 1 then
      let drop_matrix : Mat :=
        ⟨Aac.1.rows, Aac.1.cols, fun i j => if rand i j < dropout then 1 else 0⟩
      let A := (Mat.zip (· * ·) Aac.1 drop_matrix).map (· / dropout)
      (A, ⟨Zlc.2, Aac.2, some drop_matrix⟩)
    else
      (Aac.1, ⟨Zlc.2, Aac.2, none⟩)
  | .softmax =>
    let Aac := softmax ex Zlc.1
    (Aac.1, ⟨Zlc.2, Aac.2, none⟩)

/-- apply_batchnorm: per-feature standardisation across the example axis with
biased variance and an eps floor inside the square root; sqrtv abstracts
np.sqrt and eps abstracts np.finfo(float).eps. -/
def apply_batchnorm (sqrtv : ℚ → ℚ) (eps : ℚ) (A : Mat) : Mat :=
  let mean : Nat → ℚ := fun i => (∑ j ∈ Finset.range A.cols, A.entry i j) / (A.cols : ℚ)
  let var : Nat → ℚ :=
    fun i => (∑ j ∈ Finset.range A.cols, (A.entry i j - mean i) ^ 2) / (A.cols : ℚ)
  ⟨A.rows, A.cols, fun i j => (A.entry i j - mean i) / sqrtv (var i + eps)⟩

/-- The parameters dictionary: len(parameters) layers, keyed 1..L.  The lookup
is a total function; only keys 1..L are meaningful, mirroring the python dict. -/
structure Params where
  L : Nat
  get : Nat → Mat × Mat

/-- initialize_parameters: for each layer l in 1..len(layer_dims)-1, a weight
matrix of shape [dims[l], dims[l-1]] filled with randn draws scaled by
sqrt(2/dims[l]), and a zero bias of shape [dims[l], 1]. -/
def initialize_parameters (randn : Nat → Nat → Nat → ℚ) (sqrtv : ℚ → ℚ)
    (layer_dims : List Nat) : Params :=
  ⟨layer_dims.length - 1,
   fun l =>
     (⟨layer_dims.getD l 0, layer_dims.getD (l - 1) 0,
       fun i j => randn l i j * sqrtv (2 / (layer_dims.getD l 0 : ℚ))⟩,
      Mat.zeros (layer_dims.getD l 0) 1)⟩

/-- L_model_forward: hidden layers 1..L-1 with relu (dropout, then optional
batchnorm), final layer L with softmax.  rand supplies the per-layer dropout
draws. -/
def L_model_forward (ex sqrtv : ℚ → ℚ) (eps : ℚ) (rand : Nat → Nat → Nat → ℚ)
    (X : Mat) (parameters : Params) (use_batchnorm : Bool) (dropout : ℚ) :
    Mat × List Cache :=
  let L := parameters.L
  let step : (Mat × List Cache) → Nat → (Mat × List Cache) := fun st layer =>
    let W := (parameters.get layer).1
    let B := (parameters.get layer).2
    let Ac := linear_activation_forward ex (rand layer) st.1 W B .relu dropout
    let A := if use_batchnorm then apply_batchnorm sqrtv eps Ac.1 else Ac.1
    (A, st.2 ++ [Ac.2])
  let st := ((List.range (L - 1)).map (· + 1)).foldl step (X, [])
  let Ac := linear_activation_forward ex (rand L) st.1 (parameters.get L).1
      (parameters.get L).2 .softmax dropout
  (Ac.1, st.2 ++ [Ac.2])

/-- compute_cost: accumulate log(AL[cl][ex]) over the entries where
Y[cl][ex] == 1, then divide by -n_examples.  log abstracts np.log; the
probabilities are passed to it unmodified. -/
def compute_cost (log : ℚ → ℚ) (AL Y : Mat) : ℚ :=
  let n_classes := AL.rows
  let n_examples := AL.cols
  let cost : ℚ :=
    (List.range n_examples).foldl (fun c ex =>
      (List.range n_classes).foldl (fun c cl =>
        if Y.entry cl ex = 1 then c + 1 * log (AL.entry cl ex) else c) c) 0
  cost / (-(n_examples : ℚ))

/-- The exact multiset of values the source's compute_cost hands to np.log,
in evaluation order: the predicted probability of each example's true class. -/
def compute_cost_log_args (AL Y : Mat) : List ℚ :=
  (List.range AL.cols).flatMap (fun ex =>
    (List.range AL.rows).filterMap (fun cl =>
      if Y.entry cl ex = 1 then some (AL.entry cl ex) else none))

/-- Modelled from the spec: compute_cost with the defensive epsilon floor the
spec describes ("guard against log(0) … clamp defensively with an epsilon
floor").  The source has no such clamp; this definition exists only to be
compared against it. -/
def compute_cost_clamped (log : ℚ → ℚ) (eps : ℚ) (AL Y : Mat) : ℚ :=
  let cost : ℚ :=
    (List.range AL.cols).foldl (fun c ex =>
      (List.range AL.rows).foldl (fun c cl =>
        if Y.entry cl ex = 1 then c + 1 * log (max eps (AL.entry cl ex)) else c) c) 0
  cost / (-(AL.cols : ℚ))

/-- Linear_backward: dW = dZ·A_prevᵀ / samples, db row-sums of the first
(b.rows) rows of dZ divided by samples, dA_prev = Wᵀ·dZ, with
samples = A_prev.shape[1]. -/
def Linear_backward (dZ : Mat) (cache : Mat × Mat × Mat) : Mat × Mat × Mat :=
  let A_prev := cache.1
  let W := cache.2.1
  let neurons := cache.2.2.rows
  let samples := A_prev.cols
  let dW := (Mat.matMul dZ (Mat.transpose A_prev)).map (· / (samples : ℚ))
  let db : Mat :=
    ⟨neurons, 1, fun i _ => (∑ j ∈ Finset.range dZ.cols, dZ.entry i j) / (samples : ℚ)⟩
  let dA_prev := Mat.matMul (Mat.transpose W) dZ
  (dA_prev, dW, db)

/-- relu_backward: copy dA and zero every entry whose cached pre-activation
is ≤ 0. -/
def relu_backward (dA activation_cache : Mat) : Mat :=
  ⟨dA.rows, dA.cols, fun i j =>
    if activation_cache.entry i j ≤ 0 then 0 else dA.entry i j⟩

/-- softmax_backward: dZ = dA − Y (the combined softmax/cross-entropy
shortcut; the second argument is the true-label matrix stored in the cache). -/
def softmax_backward (dA Y : Mat) : Mat := Mat.zip (· - ·) dA Y

/-- linear_activation_backward.  dropout_cache models the python dict argument:
none is the empty dict {}, some (prob, mask) is {'prob': …, 'cache': …};
the mask is applied to dA_prev (and rescaled by /dropout) only when
dropout < 1 and the dict is non-empty. -/
def linear_activation_backward (dA : Mat) (cache : Cache) (activation : Activation)
    (dropout : ℚ) (dropout_cache : Option (ℚ × Mat)) : Mat × Mat × Mat :=
  let r :=
    match activation with
    | .relu => Linear_backward (relu_backward dA cache.act) cache.lin
    | .softmax =>
        let Y := cache.third.getD (Mat.zeros 0 0)
        Linear_backward (softmax_backward dA Y) cache.lin
  if dropout < 1 then
    match dropout_cache with
    | some dc => ((Mat.zip (· * ·) r.1 dc.2).map (· / dropout), r.2.1, r.2.2)
    | none => r
  else r

/-- The gradients dictionary: three string-keyed families dA/dW/db become
three Nat-indexed lookup functions. -/
structure Grads where
  dA : Nat → Mat
  dW : Nat → Mat
  db : Nat → Mat

/-- Dictionary update for one gradient key. -/
def updFn (g : Nat → Mat) (k : Nat) (v : Mat) : Nat → Mat :=
  fun l => if l = k then v else g l

/-- L_model_backward.  The output layer uses softmax_backward with the labels
appended as the cache's third slot, taking caches[layers-2]'s mask as its
dropout dict; the hidden loop runs l = layers-2 … 0 and rebuilds the dropout
dict from caches[l-2] only when l-2 > 0 (the source's index arithmetic,
reproduced verbatim: natural subtraction agrees with the python guard here). -/
def L_model_backward (AL Y : Mat) (caches : List Cache) (dropout : ℚ) : Grads :=
  let layers := caches.length
  let dc0 : Option (ℚ × Mat) :=
    if dropout < 1 then
      some (dropout, (caches.getD (layers - 2) defaultCache).third.getD (Mat.zeros 0 0))
    else none
  let lastC := caches.getD (layers - 1) defaultCache
  let r0 := linear_activation_backward AL { lastC with third := some Y } .softmax dropout dc0
  let g0 : Grads :=
    { dA := updFn (fun _ => Mat.zeros 0 0) (layers - 1) r0.1
      dW := updFn (fun _ => Mat.zeros 0 0) layers r0.2.1
      db := updFn (fun _ => Mat.zeros 0 0) layers r0.2.2 }
  (List.range (layers - 1)).reverse.foldl (fun g l =>
    let dc : Option (ℚ × Mat) :=
      if dropout < 1 ∧ 0 < l - 2 then
        some (dropout, (caches.getD (l - 2) defaultCache).third.getD (Mat.zeros 0 0))
      else none
    let r := linear_activation_backward (g.dA (l + 1)) (caches.getD l defaultCache)
        .relu dropout dc
    { dA := updFn g.dA l r.1
      dW := updFn g.dW (l + 1) r.2.1
      db := updFn g.db (l + 1) r.2.2 }) g0

/-- Update_parameters: plain gradient descent on every layer key 1..L. -/
def Update_parameters (parameters : Params) (grads : Grads) (learning_rate : ℚ) :
    Params :=
  ⟨parameters.L,
   fun l =>
     if 1 ≤ l ∧ l ≤ parameters.L then
       (Mat.zip (fun w g => w - learning_rate * g) (parameters.get l).1 (grads.dW l),
        Mat.zip (fun b g => b - learning_rate * g) (parameters.get l).2 (grads.db l))
     else parameters.get l⟩

/-- The first index attaining a column's maximum, resolving ties by the first
occurrence — the semantics of python's max(enumerate(col), key=itemgetter(1)). -/
def argmaxCol (A : Mat) (j : Nat) : Nat :=
  (List.range A.rows).foldl (fun best i => if A.entry best j < A.entry i j then i else best) 0

/-- Predict: forward pass in evaluation mode (dropout keep-probability 1),
a second softmax over the output, then the percentage of examples whose
predicted argmax matches the label argmax. -/
def Predict (ex sqrtv : ℚ → ℚ) (eps : ℚ) (X Y : Mat) (parameters : Params)
    (use_batchnorm : Bool) : ℚ :=
  let AL := (L_model_forward ex sqrtv eps (fun _ _ _ => 0) X parameters use_batchnorm 1).1
  let AL2 := (softmax ex AL).1
  let acc : Nat :=
    (List.range AL2.cols).foldl (fun a i =>
      if argmaxCol AL2 i = argmaxCol Y i then a + 1 else a) 0
  ((acc : ℚ) / (Y.cols : ℚ)) * 100

/-- The numeric collaborators of the training loop: the transcendental
functions and the two random sources (np.random.randn for initialisation,
np.random.rand for the per-iteration dropout masks, keyed by iteration and
layer). -/
structure Env where
  ex : ℚ → ℚ
  log : ℚ → ℚ
  sqrtv : ℚ → ℚ
  eps : ℚ
  randn : Nat → Nat → Nat → ℚ
  mask : Nat → Nat → Nat → Nat → ℚ

/-- The train/validation split produced by the (out-of-scope) splitting
collaborator, stored features-by-examples / classes-by-examples. -/
structure TrainData where
  X_train : Mat
  y_train : Mat
  X_val : Mat
  y_val : Mat

/-- The mutable locals of L_layer_model's epoch/batch loop. -/
structure LoopState where
  parameters : Params
  last_cost_val : ℚ
  costs : List (Nat × ℚ)
  costs_val : List (Nat × ℚ)
  accuracy_train_list : List (Nat × ℚ)
  accuracy_val : List (Nat × ℚ)
  iteration : Nat

/-- X_train[start:end].T for batch b: columns b·bs … b·bs+bs. -/
def batchX (td : TrainData) (bs b : Nat) : Mat :=
  Mat.colSlice td.X_train (b * bs) (b * bs + bs)

/-- y_train[start:end].T for batch b. -/
def batchY (td : TrainData) (bs b : Nat) : Mat :=
  Mat.colSlice td.y_train (b * bs) (b * bs + bs)

/-- The training-mode forward pass of one batch step (dropout active as
configured). -/
def stepForward (env : Env) (td : TrainData) (ubn : Bool) (dropout : ℚ)
    (bs b : Nat) (s : LoopState) : Mat × List Cache :=
  L_model_forward env.ex env.sqrtv env.eps (env.mask s.iteration) (batchX td bs b)
    s.parameters ubn dropout

/-- The parameters after the batch step's backward pass and update. -/
def stepParams (env : Env) (td : TrainData) (ubn : Bool) (dropout lr : ℚ)
    (bs b : Nat) (s : LoopState) : Params :=
  let fw := stepForward env td ubn dropout bs b s
  Update_parameters s.parameters (L_model_backward fw.1 (batchY td bs b) fw.2 dropout) lr

/-- Evaluation forward pass over the validation partition: keep-probability 1
(the mask source is irrelevant at dropout 1). -/
def valForward (env : Env) (td : TrainData) (ubn : Bool) (ps : Params) : Mat :=
  (L_model_forward env.ex env.sqrtv env.eps (fun _ _ _ => 0) td.X_val ps ubn 1).1

/-- The validation cost recorded at a validation point. -/
def stepCostVal (env : Env) (td : TrainData) (ubn : Bool) (dropout lr : ℚ)
    (bs b : Nat) (s : LoopState) : ℚ :=
  compute_cost env.log (valForward env td ubn (stepParams env td ubn dropout lr bs b s))
    td.y_val

/-- One batch iteration of L_layer_model: forward, backward, update; every
100th iteration additionally records the training-batch cost (from the
training-mode activations), the validation cost (evaluation forward pass),
and both accuracies, then tests the early-stop condition.  The optional
result carries the early-stop report (iteration, final train accuracy, final
validation accuracy over the entire partitions). -/
def trainStep (env : Env) (td : TrainData) (ubn : Bool) (dropout lr : ℚ)
    (bs b : Nat) (s : LoopState) : LoopState × Option (Nat × ℚ × ℚ) :=
  let A := (stepForward env td ubn dropout bs b s).1
  let parameters := stepParams env td ubn dropout lr bs b s
  if s.iteration % 100 = 0 then
    let costs := s.costs ++ [(s.iteration, compute_cost env.log A (batchY td bs b))]
    let cost_val := stepCostVal env td ubn dropout lr bs b s
    let costs_val := s.costs_val ++ [(s.iteration, cost_val)]
    let atl := s.accuracy_train_list ++
      [(s.iteration, Predict env.ex env.sqrtv env.eps (batchX td bs b) (batchY td bs b)
          parameters ubn)]
    let avl := s.accuracy_val ++
      [(s.iteration, Predict env.ex env.sqrtv env.eps td.X_val td.y_val parameters ubn)]
    if s.last_cost_val - cost_val < 1 / 10 ^ 10 ∧ 18000 < s.iteration then
      ({ parameters := parameters, last_cost_val := s.last_cost_val, costs := costs,
         costs_val := costs_val, accuracy_train_list := atl, accuracy_val := avl,
         iteration := s.iteration },
       some (s.iteration,
             Predict env.ex env.sqrtv env.eps td.X_train td.y_train parameters ubn,
             Predict env.ex env.sqrtv env.eps td.X_val td.y_val parameters ubn))
    else
      ({ parameters := parameters, last_cost_val := cost_val, costs := costs,
         costs_val := costs_val, accuracy_train_list := atl, accuracy_val := avl,
         iteration := s.iteration + 1 }, none)
  else
    ({ s with parameters := parameters, iteration := s.iteration + 1 }, none)

/-- The epoch/batch loop: processes the flattened batch schedule, returning
early with the report as soon as a step fires the early-stop condition. -/
def trainLoop (env : Env) (td : TrainData) (ubn : Bool) (dropout lr : ℚ)
    (bs : Nat) : List Nat → LoopState → LoopState × Option (Nat × ℚ × ℚ)
  | [], s => (s, none)
  | b :: rest, s =>
    let r := trainStep env td ubn dropout lr bs b s
    match r.2 with
    | none => trainLoop env td ubn dropout lr bs rest r.1
    | some info => (r.1, some info)

/-- The loop locals as first set up: freshly initialised parameters,
last_cost_val = 100, empty histories, iteration counter 0. -/
def initLoopState (env : Env) (layers_dims : List Nat) : LoopState :=
  { parameters := initialize_parameters env.randn env.sqrtv layers_dims,
    last_cost_val := 100, costs := [], costs_val := [],
    accuracy_train_list := [], accuracy_val := [], iteration := 0 }

/-- L_layer_model: split the data (abstract collaborator), initialise the
parameters, run num_iterations epochs of int(len(y_train)/batch_size)
batches each, and return the trained parameters with the recorded
(iteration, cost) pairs.  No configuration validation of any kind is
performed before initialisation or the loop. -/
def L_layer_model (env : Env) (split : Mat → Mat → TrainData) (X Y : Mat)
    (layers_dims : List Nat) (learning_rate : ℚ) (num_iterations bs : Nat)
    (ubn : Bool) (dropout : ℚ) : Params × List (Nat × ℚ) :=
  let td := split X Y
  let nbatches := td.y_train.cols / bs
  let steps := ((List.range num_iterations).map (fun _ => List.range nbatches)).flatten
  let r := trainLoop env td ubn dropout learning_rate bs steps
    (initLoopState env layers_dims)
  (r.1.parameters, r.1.costs)

/-- Modelled from the spec: the mask application the backward pass owes the
gradient flowing into a hidden layer — multiply by that layer's stored mask
and divide by the keep-probability, mirroring the forward rescale. -/
def dropout_rescale (dA mask : Mat) (p : ℚ) : Mat :=
  (Mat.zip (· * ·) dA mask).map (· / p)

/-- Modelled from the spec: accuracy as "the percentage of examples whose
argmax of AL matches the argmax of Y" (ties first-encountered), computed
directly on the network output without the second softmax. -/
def argmax_accuracy (AL Y : Mat) : ℚ :=
  let acc : Nat :=
    (List.range AL.cols).foldl (fun a i =>
      if argmaxCol AL i = argmaxCol Y i then a + 1 else a) 0
  ((acc : ℚ) / (Y.cols : ℚ)) * 100

/-- Modelled from the spec: linear_activation_forward with "no dropout
mechanism at all" — the dropout branch removed. -/
def linear_activation_forward_nodrop (ex : ℚ → ℚ) (A_prev W B : Mat)
    (activation : Activation) : Mat × Cache :=
  let Zlc := linear_forward A_prev W B
  match activation with
  | .relu =>
    let Aac := relu Zlc.1
    (Aac.1, ⟨Zlc.2, Aac.2, none⟩)
  | .softmax =>
    let Aac := softmax ex Zlc.1
    (Aac.1, ⟨Zlc.2, Aac.2, none⟩)

/-- Modelled from the spec: linear_activation_backward with the dropout
block removed. -/
def linear_activation_backward_nodrop (dA : Mat) (cache : Cache)
    (activation : Activation) : Mat × Mat × Mat :=
  match activation with
  | .relu => Linear_backward (relu_backward dA cache.act) cache.lin
  | .softmax =>
      let Y := cache.third.getD (Mat.zeros 0 0)
      Linear_backward (softmax_backward dA Y) cache.lin

/-! Helper lemmas about the fold patterns of the source loops. -/

lemma foldl_add_eq (g : Nat → ℚ) :
    ∀ (n : Nat) (c0 : ℚ),
      (List.range n).foldl (fun c x => c + g x) c0 = c0 + ∑ x ∈ Finset.range n, g x := by
  intro n
  induction n with
  | zero => simp
  | succ n ih =>
      intro c0
      rw [List.range_succ, List.foldl_append, ih, Finset.sum_range_succ]
      simp [add_assoc]

lemma foldl_cond_add_eq (g : Nat → ℚ) (p : Nat → Prop) [DecidablePred p] :
    ∀ (n : Nat) (c0 : ℚ),
      (List.range n).foldl (fun c x => if p x then c + g x else c) c0 =
        c0 + ∑ x ∈ Finset.range n, (if p x then g x else 0) := by
  intro n
  induction n with
  | zero => simp
  | succ n ih =>
      intro c0
      rw [List.range_succ, List.foldl_append, ih, Finset.sum_range_succ]
      by_cases hp : p n <;> simp [hp, add_assoc]

lemma lt_iff_of_mono (f : ℚ → ℚ) (hf : ∀ a b, a < b → f a < f b) (a b : ℚ) :
    f a < f b ↔ a < b := by
  constructor
  · intro h
    by_contra hc
    push_neg at hc
    rcases eq_or_lt_of_le hc with he | hl
    · rw [he] at h
      exact lt_irrefl _ h
    · exact absurd (hf _ _ hl) (not_lt_of_gt h)
  · exact hf a b

lemma foldl_argmax_congr (u v : Nat → ℚ) (h : ∀ a b, u a < u b ↔ v a < v b) :
    ∀ (l : List Nat) (init : Nat),
      l.foldl (fun best i => if u best < u i then i else best) init =
        l.foldl (fun best i => if v best < v i then i else best) init := by
  intro l
  induction l with
  | nil => intro init; rfl
  | cons a l ih =>
      intro init
      simp only [List.foldl_cons]
      rw [if_congr (h init a) rfl rfl]
      exact ih _

/-- C5: for compatible shapes, Linear_backward returns
dW = dZ·A_prevᵀ/num_examples with W's shape, db = row-sums of dZ divided by
num_examples with shape [layer_size, 1], and dA_prev = Wᵀ·dZ with A_prev's
shape. -/
theorem c5_linear_backward (dZ A_prev W b : Mat)
    (h1 : dZ.rows = W.rows) (h2 : W.cols = A_prev.rows) (h3 : dZ.cols = A_prev.cols)
    (h4 : b.rows = W.rows) (h5 : 0 < A_prev.cols) :
    ((Linear_backward dZ (A_prev, W, b)).2.1.rows = W.rows
      ∧ (Linear_backward dZ (A_prev, W, b)).2.1.cols = W.cols
      ∧ ∀ i j, (Linear_backward dZ (A_prev, W, b)).2.1.entry i j =
          (∑ k ∈ Finset.range A_prev.cols, dZ.entry i k * A_prev.entry j k) /
            (A_prev.cols : ℚ))
    ∧ ((Linear_backward dZ (A_prev, W, b)).2.2.rows = W.rows
      ∧ (Linear_backward dZ (A_prev, W, b)).2.2.cols = 1
      ∧ ∀ i j, (Linear_backward dZ (A_prev, W, b)).2.2.entry i j =
          (∑ k ∈ Finset.range A_prev.cols, dZ.entry i k) / (A_prev.cols : ℚ))
    ∧ ((Linear_backward dZ (A_prev, W, b)).1.rows = A_prev.rows
      ∧ (Linear_backward dZ (A_prev, W, b)).1.cols = A_prev.cols
      ∧ ∀ i j, (Linear_backward dZ (A_prev, W, b)).1.entry i j =
          ∑ k ∈ Finset.range W.rows, W.entry k i * dZ.entry k j) := by
  refine ⟨⟨?_, ?_, ?_⟩, ⟨?_, ?_, ?_⟩, ⟨?_, ?_, ?_⟩⟩
  · simpa [Linear_backward, Mat.matMul, Mat.map] using h1
  · simpa [Linear_backward, Mat.matMul, Mat.map, Mat.transpose] using h2.symm
  · intro i j
    simp [Linear_backward, Mat.matMul, Mat.map, Mat.transpose, h3]
  · simpa [Linear_backward] using h4
  · rfl
  · intro i j
    simp [Linear_backward, h3]
  · simpa [Linear_backward, Mat.matMul, Mat.transpose] using h2
  · simpa [Linear_backward, Mat.matMul, Mat.transpose] using h3
  · intro i j
    simp [Linear_backward, Mat.matMul, Mat.transpose]

/-- Concrete matrices exercising c5_linear_backward. -/
def dZ5 : Mat := ⟨1, 2, fun _ j => if j = 0 then 3 else 5⟩

def A5 : Mat := ⟨1, 2, fun _ j => if j = 0 then 2 else 7⟩

def W5 : Mat := ⟨1, 1, fun _ _ => 4⟩

def b5 : Mat := ⟨1, 1, fun _ _ => 0⟩

/-- Witness for c5_linear_backward at a concrete input. -/
theorem c5_linear_backward_witness :
    (Linear_backward dZ5 (A5, W5, b5)).2.1.rows = W5.rows
    ∧ (Linear_backward dZ5 (A5, W5, b5)).2.1.entry 0 0 =
        (∑ k ∈ Finset.range A5.cols, dZ5.entry 0 k * A5.entry 0 k) / (A5.cols : ℚ)
    ∧ (Linear_backward dZ5 (A5, W5, b5)).2.2.entry 0 0 =
        (∑ k ∈ Finset.range A5.cols, dZ5.entry 0 k) / (A5.cols : ℚ)
    ∧ (Linear_backward dZ5 (A5, W5, b5)).1.entry 0 1 =
        ∑ k ∈ Finset.range W5.rows, W5.entry k 0 * dZ5.entry k 1 := by
  have h := c5_linear_backward dZ5 A5 W5 b5 (by decide) (by decide) (by decide)
    (by decide) (by decide)
  exact ⟨h.1.1, h.1.2.2 0 0, h.2.1.2.2 0 0, h.2.2.2.2 0 1⟩

/-- C6: initialize_parameters gives layer l the weight shape
[dims[l], dims[l-1]] and an all-zero bias of shape [dims[l], 1], and
Update_parameters leaves every weight and bias with the shape it had
before. -/
theorem c6_shapes (randn : Nat → Nat → Nat → ℚ) (sqrtv : ℚ → ℚ)
    (layer_dims : List Nat) (l : Nat)
    (h1 : 1 ≤ l) (h2 : l ≤ layer_dims.length - 1)
    (ps : Params) (grads : Grads) (lr : ℚ) :
    ((initialize_parameters randn sqrtv layer_dims).get l).1.rows = layer_dims.getD l 0
    ∧ ((initialize_parameters randn sqrtv layer_dims).get l).1.cols =
        layer_dims.getD (l - 1) 0
    ∧ ((initialize_parameters randn sqrtv layer_dims).get l).2.rows = layer_dims.getD l 0
    ∧ ((initialize_parameters randn sqrtv layer_dims).get l).2.cols = 1
    ∧ (∀ i j, ((initialize_parameters randn sqrtv layer_dims).get l).2.entry i j = 0)
    ∧ ((Update_parameters ps grads lr).get l).1.rows = (ps.get l).1.rows
    ∧ ((Update_parameters ps grads lr).get l).1.cols = (ps.get l).1.cols
    ∧ ((Update_parameters ps grads lr).get l).2.rows = (ps.get l).2.rows
    ∧ ((Update_parameters ps grads lr).get l).2.cols = (ps.get l).2.cols := by
  refine ⟨rfl, rfl, rfl, rfl, fun i j => rfl, ?_, ?_, ?_, ?_⟩ <;>
    · simp only [Update_parameters]
      split_ifs <;> rfl

/-- Witness for c6_shapes at layer_dims = [3, 2], l = 1, with a concrete
parameter store and gradient store. -/
theorem c6_shapes_witness :
    ((initialize_parameters (fun _ _ _ => 1) id [3, 2]).get 1).1.rows = 2
    ∧ ((initialize_parameters (fun _ _ _ => 1) id [3, 2]).get 1).1.cols = 3
    ∧ ((initialize_parameters (fun _ _ _ => 1) id [3, 2]).get 1).2.entry 0 0 = 0
    ∧ ((Update_parameters ⟨1, fun _ => (W5, b5)⟩ ⟨fun _ => dZ5, fun _ => dZ5, fun _ => dZ5⟩ 1).get
        1).1.rows = W5.rows := by
  have h := c6_shapes (fun _ _ _ => 1) id [3, 2] 1 (by decide) (by decide)
    ⟨1, fun _ => (W5, b5)⟩ ⟨fun _ => dZ5, fun _ => dZ5, fun _ => dZ5⟩ 1
  exact ⟨h.1, h.2.1, h.2.2.2.2.1 0 0, h.2.2.2.2.2.1⟩

/-- C8: with keep-probability exactly 1, the forward and backward layer
functions coincide (activations, caches, dA_prev, dW, db) with the versions
that have no dropout mechanism at all, for every input and both
activations. -/
theorem c8_dropout_one (ex : ℚ → ℚ) (rand : Nat → Nat → ℚ) (A_prev W B : Mat)
    (act : Activation) (dA : Mat) (cache : Cache) (dc : Option (ℚ × Mat)) :
    linear_activation_forward ex rand A_prev W B act 1 =
      linear_activation_forward_nodrop ex A_prev W B act
    ∧ linear_activation_backward dA cache act 1 dc =
        linear_activation_backward_nodrop dA cache act := by
  constructor
  · cases act <;>
      simp [linear_activation_forward, linear_activation_forward_nodrop]
  · cases act <;>
      simp [linear_activation_backward, linear_activation_backward_nodrop]

/-- C9: every column of the softmax output sums to 1, for any positive
exponential function and any matrix with at least one row. -/
theorem c9_softmax_columns (ex : ℚ → ℚ) (Z : Mat) (j : Nat)
    (hex : ∀ x, 0 < ex x) (hrows : 0 < Z.rows) (hj : j < Z.cols) :
    ∑ i ∈ Finset.range Z.rows, (softmax ex Z).1.entry i j = 1 := by
  simp only [softmax]
  rw [← Finset.sum_div]
  exact div_self (ne_of_gt (Finset.sum_pos (fun i _ => hex _)
    (Finset.nonempty_range_iff.mpr hrows.ne')))

/-- Witness for c9_softmax_columns on a concrete 2-row matrix with the
constant positive function as the exponential. -/
theorem c9_softmax_columns_witness :
    ∑ i ∈ Finset.range (⟨2, 1, fun i _ => (i : ℚ)⟩ : Mat).rows,
      (softmax (fun _ => 1) ⟨2, 1, fun i _ => (i : ℚ)⟩).1.entry i 0 = 1 :=
  c9_softmax_columns (fun _ => 1) ⟨2, 1, fun i _ => (i : ℚ)⟩ 0
    (fun _ => one_pos) (by decide) (by decide)

/-- C2 (amended): compute_cost applies log directly to the stored
probabilities, with no clamping, and equals
-(1/num_examples) · Σ over examples and classes of [Y==1]·log(AL). -/
theorem c2_cost_formula (log : ℚ → ℚ) (AL Y : Mat) (h : 0 < AL.cols) :
    compute_cost log AL Y =
      -(1 / (AL.cols : ℚ)) * ∑ ex ∈ Finset.range AL.cols,
        ∑ cl ∈ Finset.range AL.rows,
          (if Y.entry cl ex = 1 then log (AL.entry cl ex) else 0) := by
  have hinner : (fun (c : ℚ) (ex : Nat) =>
      (List.range AL.rows).foldl (fun c cl =>
        if Y.entry cl ex = 1 then c + 1 * log (AL.entry cl ex) else c) c) =
      fun (c : ℚ) (ex : Nat) => c + ∑ cl ∈ Finset.range AL.rows,
        (if Y.entry cl ex = 1 then log (AL.entry cl ex) else 0) := by
    funext c ex
    rw [foldl_cond_add_eq (fun cl => 1 * log (AL.entry cl ex))
      (fun cl => Y.entry cl ex = 1) AL.rows c]
    simp
  simp only [compute_cost, hinner]
  rw [foldl_add_eq (fun ex => ∑ cl ∈ Finset.range AL.rows,
    (if Y.entry cl ex = 1 then log (AL.entry cl ex) else 0)) AL.cols 0]
  rw [zero_add, div_neg, neg_mul, one_div, inv_mul_eq_div]

/-- Witness for c2_cost_formula on a concrete 1×1 probability matrix with
the identity as log. -/
theorem c2_cost_formula_witness :
    compute_cost id (⟨1, 1, fun _ _ => 1/2⟩ : Mat) (⟨1, 1, fun _ _ => 1⟩ : Mat) =
      -(1 / ((⟨1, 1, fun _ _ => 1/2⟩ : Mat).cols : ℚ)) *
        ∑ ex ∈ Finset.range (⟨1, 1, fun _ _ => 1/2⟩ : Mat).cols,
          ∑ cl ∈ Finset.range (⟨1, 1, fun _ _ => 1/2⟩ : Mat).rows,
            (if (⟨1, 1, fun _ _ => 1⟩ : Mat).entry cl ex = 1
             then id ((⟨1, 1, fun _ _ => 1/2⟩ : Mat).entry cl ex) else 0) :=
  c2_cost_formula id ⟨1, 1, fun _ _ => 1/2⟩ ⟨1, 1, fun _ _ => 1⟩ (by decide)

/-- A log stand-in that distinguishes the argument 0 from every clamped
positive argument. -/
def logD : ℚ → ℚ := fun x => if x = 0 then 1 else 0

/-- C2 counterexample: a zero true-class probability reaches log unclamped —
the value 0 itself is handed to the log collaborator (compute_cost_log_args
is exactly [0]), so compute_cost differs from the spec's epsilon-clamped
evaluator under a log function that distinguishes 0 from the clamp floor. -/
theorem c2_no_clamp_counterexample :
    compute_cost_log_args (Mat.zeros 1 1) (⟨1, 1, fun _ _ => 1⟩ : Mat) = [0]
    ∧ compute_cost logD (Mat.zeros 1 1) (⟨1, 1, fun _ _ => 1⟩ : Mat) ≠
        compute_cost_clamped logD (1 / 2 ^ 52) (Mat.zeros 1 1)
          (⟨1, 1, fun _ _ => 1⟩ : Mat) := by
  constructor
  · rfl
  · simp only [compute_cost, compute_cost_clamped, logD, Mat.zeros, List.range_succ,
      List.range_zero, List.nil_append, List.foldl_cons, List.foldl_nil]
    norm_num

/-- Applying softmax to a column does not change its first-maximal index,
for any strictly monotone positive exponential. -/
lemma argmaxCol_softmax (ex : ℚ → ℚ) (AL : Mat) (j : Nat)
    (hmono : ∀ a b : ℚ, a < b → ex a < ex b) (hpos : ∀ x, 0 < ex x) :
    argmaxCol (softmax ex AL).1 j = argmaxCol AL j := by
  rcases Nat.eq_zero_or_pos AL.rows with hz | hr
  · simp [argmaxCol, softmax, hz]
  · have hS : 0 < ∑ i ∈ Finset.range AL.rows, ex (AL.entry i j - Mat.colMax AL j) :=
      Finset.sum_pos (fun i _ => hpos _) (Finset.nonempty_range_iff.mpr hr.ne')
    have hiff : ∀ a b : Nat,
        (softmax ex AL).1.entry a j < (softmax ex AL).1.entry b j ↔
          AL.entry a j < AL.entry b j := by
      intro a b
      have hmain := lt_iff_of_mono
        (fun x => ex (x - Mat.colMax AL j) /
          ∑ i ∈ Finset.range AL.rows, ex (AL.entry i j - Mat.colMax AL j))
        (fun x y hxy => div_lt_div_of_pos_right (hmono _ _ (sub_lt_sub_right hxy _)) hS)
        (AL.entry a j) (AL.entry b j)
      simpa [softmax] using hmain
    have hc := foldl_argmax_congr (fun i => (softmax ex AL).1.entry i j)
      (fun i => AL.entry i j) hiff (List.range AL.rows) 0
    exact hc

/-- C10: Predict's double softmax leaves every per-example argmax unchanged,
so its result is exactly the percentage of examples whose argmax of the
network output AL matches the label argmax (ties first-encountered). -/
theorem c10_predict_argmax (ex sqrtv : ℚ → ℚ) (eps : ℚ) (X Y : Mat)
    (parameters : Params) (ubn : Bool)
    (hmono : ∀ a b : ℚ, a < b → ex a < ex b) (hpos : ∀ x, 0 < ex x) :
    Predict ex sqrtv eps X Y parameters ubn =
      argmax_accuracy
        (L_model_forward ex sqrtv eps (fun _ _ _ => 0) X parameters ubn 1).1 Y := by
  set AL := (L_model_forward ex sqrtv eps (fun _ _ _ => 0) X parameters ubn 1).1 with hAL
  have hbody : (fun (a i : Nat) =>
      if argmaxCol (softmax ex AL).1 i = argmaxCol Y i then a + 1 else a)
      = fun (a i : Nat) => if argmaxCol AL i = argmaxCol Y i then a + 1 else a := by
    funext a i
    rw [argmaxCol_softmax ex AL i hmono hpos]
  simp only [Predict, argmax_accuracy, ← hAL]
  rw [hbody]
  rfl

/-- A concrete strictly monotone positive stand-in for np.exp, used by the
c10 witness. -/
def exW : ℚ → ℚ := fun x => if x < 0 then 1 / (1 - x) else x + 1

lemma exW_mono : ∀ a b : ℚ, a < b → exW a < exW b := by
  intro a b h
  unfold exW
  split_ifs with ha hb
  · have h1 : (0:ℚ) < 1 - b := by linarith
    have h2 : 1 - b < 1 - a := by linarith
    exact one_div_lt_one_div_of_lt h1 h2
  · have h1 : (0:ℚ) < 1 - a := by linarith
    have h2 : 1 / (1 - a) < 1 := by
      rw [div_lt_one h1]
      linarith
    linarith
  · linarith
  · linarith

lemma exW_pos : ∀ x : ℚ, 0 < exW x := by
  intro x
  unfold exW
  split_ifs with hx
  · exact div_pos one_pos (by linarith)
  · linarith

/-- Witness for c10_predict_argmax on a concrete one-layer network. -/
theorem c10_predict_argmax_witness :
    Predict exW id 0 (⟨1, 1, fun _ _ => 1⟩ : Mat) (⟨1, 1, fun _ _ => 1⟩ : Mat)
      ⟨1, fun _ => (⟨1, 1, fun _ _ => 1⟩, Mat.zeros 1 1)⟩ false =
      argmax_accuracy
        (L_model_forward exW id 0 (fun _ _ _ => 0) (⟨1, 1, fun _ _ => 1⟩ : Mat)
          ⟨1, fun _ => (⟨1, 1, fun _ _ => 1⟩, Mat.zeros 1 1)⟩ false 1).1
        (⟨1, 1, fun _ _ => 1⟩ : Mat) :=
  c10_predict_argmax exW id 0 ⟨1, 1, fun _ _ => 1⟩ ⟨1, 1, fun _ _ => 1⟩
    ⟨1, fun _ => (⟨1, 1, fun _ _ => 1⟩, Mat.zeros 1 1)⟩ false exW_mono exW_pos

/-- Unfolding equation of the loop at a cons cell. -/
lemma trainLoop_cons (env : Env) (td : TrainData) (ubn : Bool) (dropout lr : ℚ)
    (bs b : Nat) (rest : List Nat) (s : LoopState) :
    trainLoop env td ubn dropout lr bs (b :: rest) s =
      match (trainStep env td ubn dropout lr bs b s).2 with
      | none => trainLoop env td ubn dropout lr bs rest
          (trainStep env td ubn dropout lr bs b s).1
      | some info => ((trainStep env td ubn dropout lr bs b s).1, some info) := rfl

/-- Each batch step only ever appends to the recorded cost history. -/
lemma trainStep_costs_append (env : Env) (td : TrainData) (ubn : Bool)
    (dropout lr : ℚ) (bs b : Nat) (s : LoopState) :
    ∃ t, (trainStep env td ubn dropout lr bs b s).1.costs = s.costs ++ t := by
  simp only [trainStep]
  split_ifs
  · exact ⟨_, rfl⟩
  · exact ⟨_, rfl⟩
  · exact ⟨[], (List.append_nil _).symm⟩

/-- The loop only ever appends to the recorded cost history. -/
lemma trainLoop_costs_append (env : Env) (td : TrainData) (ubn : Bool)
    (dropout lr : ℚ) (bs : Nat) :
    ∀ (steps : List Nat) (s : LoopState),
      ∃ t, (trainLoop env td ubn dropout lr bs steps s).1.costs = s.costs ++ t := by
  intro steps
  induction steps with
  | nil => exact fun s => ⟨[], (List.append_nil _).symm⟩
  | cons b rest ih =>
      intro s
      rw [trainLoop_cons]
      obtain ⟨u, hu⟩ := trainStep_costs_append env td ubn dropout lr bs b s
      cases hinfo : (trainStep env td ubn dropout lr bs b s).2 with
      | none =>
          obtain ⟨t, ht⟩ := ih (trainStep env td ubn dropout lr bs b s).1
          exact ⟨u ++ t, by rw [ht, hu, List.append_assoc]⟩
      | some info => exact ⟨u, hu⟩

/-- C4 (amended): at every iteration that is a multiple of 100 the loop
records four (iteration, value) pairs — the training-batch cost computed
from the training-mode forward output (dropout active as configured, not
recomputed), the validation cost from a fresh forward pass with
keep-probability 1 (stepCostVal via valForward), and the training-batch and
validation accuracies via Predict, which runs its forward pass with
keep-probability 1. -/
theorem c4_validation_records (env : Env) (td : TrainData) (ubn : Bool)
    (dropout lr : ℚ) (bs b : Nat) (s : LoopState)
    (h : s.iteration % 100 = 0) :
    (trainStep env td ubn dropout lr bs b s).1.costs =
      s.costs ++ [(s.iteration,
        compute_cost env.log (stepForward env td ubn dropout bs b s).1 (batchY td bs b))]
    ∧ (trainStep env td ubn dropout lr bs b s).1.costs_val =
        s.costs_val ++ [(s.iteration, stepCostVal env td ubn dropout lr bs b s)]
    ∧ (trainStep env td ubn dropout lr bs b s).1.accuracy_train_list =
        s.accuracy_train_list ++ [(s.iteration,
          Predict env.ex env.sqrtv env.eps (batchX td bs b) (batchY td bs b)
            (stepParams env td ubn dropout lr bs b s) ubn)]
    ∧ (trainStep env td ubn dropout lr bs b s).1.accuracy_val =
        s.accuracy_val ++ [(s.iteration,
          Predict env.ex env.sqrtv env.eps td.X_val td.y_val
            (stepParams env td ubn dropout lr bs b s) ubn)] := by
  simp only [trainStep]
  rw [if_pos h]
  split_ifs
  · exact ⟨rfl, rfl, rfl, rfl⟩
  · exact ⟨rfl, rfl, rfl, rfl⟩

/-- The all-ones 1×1 matrix, used as concrete data. -/
def oneM : Mat := ⟨1, 1, fun _ _ => 1⟩

/-- Concrete environment for the c4 witness: trivial collaborators. -/
def envW : Env :=
  { ex := fun _ => 1, log := fun _ => 0, sqrtv := id, eps := 0,
    randn := fun _ _ _ => 1, mask := fun _ _ _ _ => 0 }

/-- Concrete data for the c4 witness. -/
def tdW : TrainData := { X_train := oneM, y_train := oneM, X_val := oneM, y_val := oneM }

/-- Concrete loop state at iteration 0 for the c4 witness. -/
def sW : LoopState :=
  { parameters := ⟨1, fun _ => (oneM, Mat.zeros 1 1)⟩, last_cost_val := 100,
    costs := [], costs_val := [], accuracy_train_list := [], accuracy_val := [],
    iteration := 0 }

/-- Witness for c4_validation_records at iteration 0 of a concrete state. -/
theorem c4_validation_records_witness :
    (trainStep envW tdW false 1 1 1 0 sW).1.costs =
      sW.costs ++ [(sW.iteration,
        compute_cost envW.log (stepForward envW tdW false 1 1 0 sW).1 (batchY tdW 1 0))]
    ∧ (trainStep envW tdW false 1 1 1 0 sW).1.costs_val =
        sW.costs_val ++ [(sW.iteration, stepCostVal envW tdW false 1 1 1 0 sW)] := by
  have h := c4_validation_records envW tdW false 1 1 1 0 sW (by rfl)
  exact ⟨h.1, h.2.1⟩

/-- Concrete environment exhibiting the unrecomputed training cost: identity
log, exponential x+10, fixed weights (layer 1 all ones, layer 2 identity),
and a mask source that keeps hidden unit 0 and drops hidden unit 1. -/
def env4 : Env :=
  { ex := fun x => x + 10, log := id, sqrtv := fun _ => 1, eps := 0,
    randn := fun l i j => if l = 1 then 1 else (if i = j then 1 else 0),
    mask := fun _it _l i _j => if i = 0 then 0 else 1 }

/-- One-hot label column (class 0) for the two-class counterexample net. -/
def Y4 : Mat := ⟨2, 1, fun i _ => if i = 0 then 1 else 0⟩

/-- Concrete split for the c4 counterexample. -/
def td4 : TrainData := { X_train := oneM, y_train := Y4, X_val := oneM, y_val := Y4 }

def split4 : Mat → Mat → TrainData := fun _ _ => td4

set_option maxHeartbeats 2000000 in
/-- C4 counterexample: in the [1,2,2] network with dropout 1/2 and learning
rate 0, the cost recorded at iteration 0 is -5/9 — the cost of the
dropout-active training activations — whereas recomputing the same batch's
cost with keep-probability 1 over the same (unchanged, lr = 0) parameters
gives -1/2.  The recorded training cost is therefore not produced by a
dropout-off forward pass. -/
theorem c4_counterexample :
    (L_layer_model env4 split4 oneM Y4 [1, 2, 2] 0 1 1 false (1/2)).2 = [(0, -(5/9))]
    ∧ (-(5/9) : ℚ) ≠
        compute_cost env4.log
          (L_model_forward env4.ex env4.sqrtv env4.eps (fun _ _ _ => 0) (batchX td4 1 0)
            (initialize_parameters env4.randn env4.sqrtv [1, 2, 2]) false 1).1
          (batchY td4 1 0) := by
  constructor
  · norm_num [L_layer_model, initLoopState, trainLoop, trainStep, stepForward, stepParams,
      stepCostVal, valForward, batchX, batchY, L_model_forward, L_model_backward,
      linear_activation_forward, linear_activation_backward, linear_forward, relu,
      relu_backward, softmax, softmax_backward, Linear_backward, compute_cost, Predict,
      argmaxCol, initialize_parameters, Update_parameters, updFn, apply_batchnorm,
      Mat.matMul, Mat.transpose, Mat.map, Mat.zip, Mat.addBias, Mat.colMax, Mat.colSlice,
      Mat.zeros, env4, td4, split4, Y4, oneM, defaultCache, List.range_succ,
      Finset.sum_range_succ, Finset.sum_range_zero]
  · norm_num [compute_cost, L_model_forward, linear_activation_forward, linear_forward,
      relu, softmax, initialize_parameters, batchX, batchY, Mat.matMul, Mat.transpose,
      Mat.map, Mat.zip, Mat.addBias, Mat.colMax, Mat.colSlice, Mat.zeros, env4, td4, Y4,
      oneM, List.range_succ, Finset.sum_range_succ, Finset.sum_range_zero]

/-- C7: if, at a recorded validation point (iteration ≡ 0 mod 100), the drop
of the validation cost since the previous recorded point is below 1e-10 and
the iteration counter exceeds 18000, the loop returns at that very step —
the result does not depend on the remaining batch schedule — reporting the
final train and validation accuracies over the entire partitions with the
current (just updated) parameters, and the returned cost history has
iteration/100 + 1 entries, strictly fewer than the full configured budget of
batch steps (the steps already done plus this one plus the remaining
schedule). -/
theorem c7_early_stop (env : Env) (td : TrainData) (ubn : Bool) (dropout lr : ℚ)
    (bs b : Nat) (rest : List Nat) (s : LoopState)
    (hrec : s.iteration % 100 = 0)
    (hiter : 18000 < s.iteration)
    (hdrop : s.last_cost_val - stepCostVal env td ubn dropout lr bs b s < 1 / 10 ^ 10)
    (hlen : s.costs.length = s.iteration / 100) :
    trainLoop env td ubn dropout lr bs (b :: rest) s =
      ((trainStep env td ubn dropout lr bs b s).1,
       some (s.iteration,
         Predict env.ex env.sqrtv env.eps td.X_train td.y_train
           (stepParams env td ubn dropout lr bs b s) ubn,
         Predict env.ex env.sqrtv env.eps td.X_val td.y_val
           (stepParams env td ubn dropout lr bs b s) ubn))
    ∧ (trainStep env td ubn dropout lr bs b s).1.parameters =
        stepParams env td ubn dropout lr bs b s
    ∧ (trainStep env td ubn dropout lr bs b s).1.costs.length = s.iteration / 100 + 1
    ∧ (trainStep env td ubn dropout lr bs b s).1.costs.length <
        s.iteration + 1 + rest.length := by
  have hstep : trainStep env td ubn dropout lr bs b s =
      ({ parameters := stepParams env td ubn dropout lr bs b s,
         last_cost_val := s.last_cost_val,
         costs := s.costs ++ [(s.iteration,
           compute_cost env.log (stepForward env td ubn dropout bs b s).1
             (batchY td bs b))],
         costs_val := s.costs_val ++
           [(s.iteration, stepCostVal env td ubn dropout lr bs b s)],
         accuracy_train_list := s.accuracy_train_list ++
           [(s.iteration, Predict env.ex env.sqrtv env.eps (batchX td bs b)
               (batchY td bs b) (stepParams env td ubn dropout lr bs b s) ubn)],
         accuracy_val := s.accuracy_val ++
           [(s.iteration, Predict env.ex env.sqrtv env.eps td.X_val td.y_val
               (stepParams env td ubn dropout lr bs b s) ubn)],
         iteration := s.iteration },
       some (s.iteration,
         Predict env.ex env.sqrtv env.eps td.X_train td.y_train
           (stepParams env td ubn dropout lr bs b s) ubn,
         Predict env.ex env.sqrtv env.eps td.X_val td.y_val
           (stepParams env td ubn dropout lr bs b s) ubn)) := by
    simp only [trainStep]
    rw [if_pos hrec, if_pos ⟨hdrop, hiter⟩]
  have hdivlt : s.iteration / 100 < s.iteration :=
    Nat.div_lt_self (by omega) (by norm_num)
  refine ⟨?_, ?_, ?_, ?_⟩
  · rw [trainLoop_cons, hstep]
  · rw [hstep]
  · rw [hstep]
    simp [hlen]
  · rw [hstep]
    simp only [List.length_append, List.length_cons, List.length_nil, hlen]
    omega

/-- Concrete environment for the c7 witness. -/
def env7 : Env :=
  { ex := fun _ => 1, log := fun _ => 0, sqrtv := id, eps := 0,
    randn := fun _ _ _ => 1, mask := fun _ _ _ _ => 0 }

/-- Concrete data for the c7 witness. -/
def td7 : TrainData :=
  { X_train := oneM, y_train := oneM, X_val := oneM, y_val := Mat.zeros 1 1 }

/-- One-layer parameter store for the c7 witness. -/
def params7 : Params := ⟨1, fun _ => (oneM, Mat.zeros 1 1)⟩

/-- A plateaued cost history of 181 recorded validation points. -/
def wCosts : List (Nat × ℚ) := (List.range 181).map (fun k => (100 * k, 0))

/-- Concrete loop state at iteration 18100 whose validation cost has
plateaued. -/
def s7 : LoopState :=
  { parameters := params7, last_cost_val := 0, costs := wCosts, costs_val := [],
    accuracy_train_list := [], accuracy_val := [], iteration := 18100 }

/-- Witness for c7_early_stop: at the concrete plateaued state the loop
halts with the early-stop report and a 182-entry history. -/
theorem c7_early_stop_witness :
    trainLoop env7 td7 false 1 1 1 [0] s7 =
      ((trainStep env7 td7 false 1 1 1 0 s7).1,
       some (s7.iteration,
         Predict env7.ex env7.sqrtv env7.eps td7.X_train td7.y_train
           (stepParams env7 td7 false 1 1 1 0 s7) false,
         Predict env7.ex env7.sqrtv env7.eps td7.X_val td7.y_val
           (stepParams env7 td7 false 1 1 1 0 s7) false))
    ∧ (trainStep env7 td7 false 1 1 1 0 s7).1.costs.length = s7.iteration / 100 + 1
    ∧ (trainStep env7 td7 false 1 1 1 0 s7).1.costs.length <
        s7.iteration + 1 + ([] : List Nat).length := by
  have h := c7_early_stop env7 td7 false 1 1 1 0 [] s7
    (by norm_num [s7])
    (by norm_num [s7])
    (by norm_num [s7, stepCostVal, valForward, stepParams, stepForward, batchX, batchY,
      compute_cost, L_model_forward, L_model_backward, linear_activation_forward,
      linear_activation_backward, linear_forward, relu, relu_backward, softmax,
      softmax_backward, Linear_backward, Update_parameters, updFn, params7, td7, env7,
      oneM, defaultCache, Mat.matMul, Mat.transpose, Mat.map, Mat.zip, Mat.addBias,
      Mat.colMax, Mat.colSlice, Mat.zeros, List.range_succ, Finset.sum_range_succ,
      Finset.sum_range_zero])
    (by simp [s7, wCosts])
  exact ⟨h.1, h.2.2.1, h.2.2.2⟩

/-- C3 (amended): the training loop validates nothing.  For every
configuration — any learning rate, any dropout value, any batch size that
yields at least one batch — parameters are initialised and the first batch
step runs and records its iteration-0 cost; no configuration check can stop
it. -/
theorem c3_no_validation (env : Env) (split : Mat → Mat → TrainData) (X Y : Mat)
    (layers_dims : List Nat) (lr : ℚ) (ni bs : Nat) (ubn : Bool) (dropout : ℚ)
    (hni : 0 < ni) (hb : 0 < (split X Y).y_train.cols / bs) :
    ∃ rest, (L_layer_model env split X Y layers_dims lr ni bs ubn dropout).2 =
      (0, compute_cost env.log
        (stepForward env (split X Y) ubn dropout bs 0 (initLoopState env layers_dims)).1
        (batchY (split X Y) bs 0)) :: rest := by
  have hstep0 : (trainStep env (split X Y) ubn dropout lr bs 0
        (initLoopState env layers_dims)).2 = none ∧
      (trainStep env (split X Y) ubn dropout lr bs 0
        (initLoopState env layers_dims)).1.costs =
        [(0, compute_cost env.log
          (stepForward env (split X Y) ubn dropout bs 0
            (initLoopState env layers_dims)).1
          (batchY (split X Y) bs 0))] := by
    simp only [trainStep]
    rw [if_pos (show (initLoopState env layers_dims).iteration % 100 = 0 from rfl)]
    rw [if_neg (fun hcon => absurd hcon.2 (by norm_num [initLoopState]))]
    exact ⟨rfl, rfl⟩
  have hsteps : ∃ T : List Nat,
      ((List.range ni).map (fun _ => List.range ((split X Y).y_train.cols / bs))).flatten
        = 0 :: T := by
    obtain ⟨m, rfl⟩ := Nat.exists_eq_succ_of_ne_zero hni.ne'
    obtain ⟨k, hk⟩ := Nat.exists_eq_succ_of_ne_zero hb.ne'
    rw [List.range_succ_eq_map, List.map_cons, List.flatten_cons, hk,
      List.range_succ_eq_map]
    exact ⟨_, rfl⟩
  obtain ⟨T, hT⟩ := hsteps
  simp only [L_layer_model]
  rw [hT, trainLoop_cons, hstep0.1]
  obtain ⟨t, ht⟩ := trainLoop_costs_append env (split X Y) ubn dropout lr bs T
    (trainStep env (split X Y) ubn dropout lr bs 0 (initLoopState env layers_dims)).1
  refine ⟨t, ?_⟩
  rw [ht, hstep0.2]
  rfl

/-- Witness for c3_no_validation at a concrete configuration. -/
theorem c3_no_validation_witness :
    ∃ rest, (L_layer_model envW (fun _ _ => tdW) oneM oneM [1, 1] 1 1 1 false 1).2 =
      (0, compute_cost envW.log
        (stepForward envW (tdW) false 1 1 0 (initLoopState envW [1, 1])).1
        (batchY (tdW) 1 0)) :: rest := by
  have h := c3_no_validation envW (fun _ _ => tdW) oneM oneM [1, 1] 1 1 1 false 1
    (by norm_num) (by norm_num [tdW, oneM])
  exact h

/-- Training data with a zero label column, so the gradient at the output is
non-zero and an update visibly changes the weights. -/
def td3 : TrainData :=
  { X_train := oneM, y_train := Mat.zeros 1 1, X_val := oneM, y_val := Mat.zeros 1 1 }

def split3 : Mat → Mat → TrainData := fun _ _ => td3

set_option maxHeartbeats 2000000 in
/-- C3 counterexample: with the invalid configuration learning_rate = -1 the
loop does not fail fast: parameters are initialised, a full training step
runs (one cost is recorded at iteration 0) and the update is applied — the
weight moves from its initialised value 2 to 3. -/
theorem c3_counterexample :
    (L_layer_model envW split3 oneM oneM [1, 1] (-1) 1 1 false 1).2.length = 1
    ∧ ((L_layer_model envW split3 oneM oneM [1, 1] (-1) 1 1 false 1).1.get 1).1.entry 0 0 = 3
    ∧ ((initialize_parameters envW.randn envW.sqrtv [1, 1]).get 1).1.entry 0 0 = 2 := by
  refine ⟨?_, ?_, ?_⟩ <;>
    norm_num [L_layer_model, initLoopState, trainLoop, trainStep, stepForward, stepParams,
      stepCostVal, valForward, batchX, batchY, L_model_forward, L_model_backward,
      linear_activation_forward, linear_activation_backward, linear_forward, relu,
      relu_backward, softmax, softmax_backward, Linear_backward, compute_cost, Predict,
      argmaxCol, initialize_parameters, Update_parameters, updFn, apply_batchnorm,
      Mat.matMul, Mat.transpose, Mat.map, Mat.zip, Mat.addBias, Mat.colMax, Mat.colSlice,
      Mat.zeros, envW, td3, split3, oneM, defaultCache, List.range_succ,
      Finset.sum_range_succ, Finset.sum_range_zero]

/-- The exponential stand-in for the c1 evaluation. -/
def ex1 : ℚ → ℚ := fun x => x + 3

/-- Three unit layers (dims [1,1,1,1]): weights 1, biases 0. -/
def params1 : Params := ⟨3, fun _ => (oneM, Mat.zeros 1 1)⟩

/-- Training-mode forward pass of the c1 network at dropout 1/2; the mask
source keeps every unit, so both hidden masks are the 1×1 matrix [1]. -/
def fw1 : Mat × List Cache :=
  L_model_forward ex1 id 0 (fun _ _ _ => 0) oneM params1 false (1/2)

/-- The gradients the source computes for the c1 network. -/
def g1 : Grads := L_model_backward fw1.1 (Mat.zeros 1 1) fw1.2 (1/2)

/-- Hidden layer 1's stored dropout mask (caches[0][2]). -/
def mask1 : Mat := (fw1.2.getD 0 defaultCache).third.getD (Mat.zeros 0 0)

set_option maxHeartbeats 2000000 in
/-- C1 failing input: dims [1,1,1,1], dropout 1/2, all-kept masks, X = [[1]],
Y = [[0]], unit weights.  The gradient stored for dA1 — the gradient flowing
into hidden layer 1 — is 2: the loop guard l-2 > 0 fails at l = 1, so layer
1's mask (present in its cache, value 1) is never applied and the
keep-probability rescale ·mask/0.5 mandated by the claim (value 4) is
missing. -/
theorem c1_dropout_mask_bug :
    (g1.dA 1).entry 0 0 = 2
    ∧ mask1.entry 0 0 = 1
    ∧ (g1.dA 1).entry 0 0 ≠ (dropout_rescale (g1.dA 1) mask1 (1/2)).entry 0 0 := by
  refine ⟨?_, ?_, ?_⟩ <;>
    norm_num [g1, fw1, mask1, ex1, params1, oneM, dropout_rescale, L_model_forward,
      L_model_backward, linear_activation_forward, linear_activation_backward,
      linear_forward, relu, relu_backward, softmax, softmax_backward, Linear_backward,
      updFn, defaultCache, Mat.matMul, Mat.transpose, Mat.map, Mat.zip, Mat.addBias,
      Mat.colMax, Mat.colSlice, Mat.zeros, List.range_succ, List.getD_cons_zero,
      List.getD_cons_succ, Finset.sum_range_succ, Finset.sum_range_zero]
